import Mathlib

/-!
Shallow embedding of the pe_load PE loader (src/lib.rs, src/structs.rs,
src/rva.rs) and proofs about its specification.

Machine integers are modelled as Nat with explicit reduction modulo the
word width where the Rust code wraps (u64 pointer arithmetic, u32 size
arithmetic).  Process memory touched by the relocator is modelled as a
function from byte addresses to the 64-bit word stored at that address,
matching the fact that every relocation write in the source goes through
a mut u64 pointer.  Fallible code returns Except, panicking code
returns Option.
-/

namespace PeLoad

/-- Section header fields the loader reads (structs.rs, ImageSectionHeader).
The name, misc, relocation and line-number fields are never consulted by
the loader and are omitted from the model. -/
structure ImageSectionHeader where
  virtual_address : Nat
  size_of_raw_data : Nat
  p_raw_data : Nat
  characteristics : Nat
deriving DecidableEq, Repr

/-- Optional header fields the loader reads (structs.rs, OptionalHeader). -/
structure OptionalHeader where
  address_of_entry_point : Nat
  image_base : Nat
  size_of_image : Nat
  size_of_headers : Nat
  section_alignment : Nat
deriving DecidableEq, Repr

/-- Error enum from lib.rs (the misspelling of the relocation variant is
the source code name).  The RelocationType payload is the u16 tag. -/
inductive LoadError where
  | LoadLibraryFailed : LoadError
  | NoMemory : LoadError
  | UnsupporrtedRelocationType : Nat → LoadError
  | VirtualProtectFailed : LoadError
deriving DecidableEq, Repr

/-- DLL_PROCESS_ATTACH constant, lib.rs line 22. -/
def DLL_PROCESS_ATTACH : Nat := 1

/-- Truncation to a 64-bit value: Rust u64 arithmetic wraps modulo 2^64. -/
def u64 (x : Nat) : Nat := x % 2 ^ 64

/-- Wrapping u64 subtraction, used for the relocation delta
(lib.rs line 229, `self.image_base - optional_header.image_base`). -/
def sub64 (a b : Nat) : Nat := (a + (2 ^ 64 - b % 2 ^ 64)) % 2 ^ 64

/-- resolve_raw from lib.rs line 122: `base + offset` as u64. -/
def resolve_raw (base offset : Nat) : Nat := u64 (base + offset)

/-- Entry-point computation at the end of Loader::load (lib.rs lines
148-156): the entry-point RVA is resolved against the mapped base and the
RESOLVED ADDRESS is matched against zero to decide absence. -/
def loadEntryPoint (image_base address_of_entry_point : Nat) : Option Nat :=
  match resolve_raw image_base address_of_entry_point with
  | 0 => none
  | x => some x

/-- wrapped_dll_main from lib.rs lines 77-84: transmutes the entry point
to the stdcall DLL shape and returns a closure invoking it with a NULL
module handle (modelled as address 0), DLL_PROCESS_ATTACH and NULL. -/
def wrapped_dll_main (ep : Nat → Nat → Nat → α) : Unit → α :=
  fun _ => ep 0 DLL_PROCESS_ATTACH 0

/-- Bitwise complement of a u32 value (the `!page_size` in lib.rs
line 175). -/
def notU32 (x : Nat) : Nat := (2 ^ 32 - 1) - x % 2 ^ 32

/-- Arena-size computation of Loader::map_module (lib.rs lines 167-175):
max over sections with nonzero virtual address of
`virtual_address + size_of_raw_data` (u32 arithmetic), then rounded with
`(size + page_size) & !page_size` where `page_size` is the native page
size minus one.  The `.max()` of an empty iterator is `None` and the
source calls `.unwrap()` on it, so `none` here models the panic. -/
def mapModuleSize (sections : List ImageSectionHeader) (pageSize : Nat) :
    Option Nat :=
  match ((sections.filter (fun s => s.virtual_address != 0)).map
      (fun s => (s.virtual_address + s.size_of_raw_data) % 2 ^ 32)).max? with
  | none => none
  | some size =>
    let ps := pageSize - 1
    some (((size + ps) % 2 ^ 32) &&& notU32 ps)

/-- Memory holding a 64-bit word at each byte address (relocation targets
in the source are always dereferenced as mut u64). -/
def Mem : Type := Nat → Nat

/-- Point update of memory. -/
def writeMem (mem : Mem) (addr v : Nat) : Mem :=
  fun a => if a = addr then v else mem a

/-- Relocation record tag: `(value >> 12) & 0b00001111` (structs.rs
line 211). -/
def relocTag (e : Nat) : Nat := (e >>> 12) &&& 0b00001111

/-- Relocation record page offset: `value & 0x0FFF` (structs.rs
line 212). -/
def relocOffset (e : Nat) : Nat := e &&& 0x0FFF

/-- One base-relocation block (structs.rs, ImageBaseRelocation) together
with the stream of raw 16-bit records that follows its header in memory. -/
structure ImageBaseRelocation where
  virtual_address : Nat
  size_of_block : Nat
  words : List Nat
deriving DecidableEq, Repr

/-- Records a block's iterator yields: `(size_of_block - 8) / 2` 16-bit
words following the header (structs.rs lines 192-215). -/
def blockEntries (b : ImageBaseRelocation) : List Nat :=
  b.words.take ((b.size_of_block - 8) / 2)

/-- One fix-up of Loader::relocate (lib.rs lines 232-246).  The target
address is `(image_base + offset) + block.virtual_address` in u64
arithmetic.  Tag 0 (Absolute) does nothing; tag 10 (Dir64) adds the full
delta to the 64-bit word; tag 3 (HighLow) adds `delta & 0xFFFFFFFF` to
the SAME 64-bit word (the source always dereferences a mut u64); any
other tag is an error. -/
def applyRelocEntry (delta base bva : Nat) (mem : Mem) (e : Nat) :
    Except LoadError Mem :=
  let addr := u64 (resolve_raw base (relocOffset e) + bva)
  if relocTag e = 0 then
    Except.ok mem
  else if relocTag e = 10 then
    Except.ok (writeMem mem addr (u64 (mem addr + delta)))
  else if relocTag e = 3 then
    Except.ok (writeMem mem addr (u64 (mem addr + (delta &&& 0xFFFFFFFF))))
  else
    Except.error (LoadError.UnsupporrtedRelocationType (relocTag e))

/-- Inner loop of Loader::relocate over one block's records. -/
def relocEntries (delta base bva : Nat) (mem : Mem) :
    List Nat → Except LoadError Mem
  | [] => Except.ok mem
  | e :: es =>
    match applyRelocEntry delta base bva mem e with
    | Except.error err => Except.error err
    | Except.ok m => relocEntries delta base bva m es

/-- Outer loop of Loader::relocate over the chain of blocks. -/
def relocBlocks (delta base : Nat) (mem : Mem) :
    List ImageBaseRelocation → Except LoadError Mem
  | [] => Except.ok mem
  | b :: bs =>
    match relocEntries delta base b.virtual_address mem (blockEntries b) with
    | Except.error err => Except.error err
    | Except.ok m => relocBlocks delta base m bs

/-- OptionalHeader::get_relocation_entries (structs.rs lines 397-412):
`None` when the BaseReloc directory RVA is zero, or when the FIRST block
of the chain has `size_of_block <= 8` (the header size); otherwise the
chain of blocks.  The block list is the parsed chain the iterator would
walk starting at the directory RVA. -/
def get_relocation_entries (relocDirVA : Nat)
    (blocks : List ImageBaseRelocation) : Option (List ImageBaseRelocation) :=
  if relocDirVA = 0 then none
  else
    match blocks with
    | [] => none
    | b :: _ => if b.size_of_block ≤ 8 then none else some blocks

/-- Loader::relocate (lib.rs lines 217-253): return at once when the
image was mapped at its preferred base, otherwise walk the directory with
`delta = actual_base - preferred_base` (wrapping u64). -/
def relocate (actualBase preferredBase relocDirVA : Nat)
    (blocks : List ImageBaseRelocation) (mem : Mem) : Except LoadError Mem :=
  if actualBase = preferredBase then Except.ok mem
  else
    match get_relocation_entries relocDirVA blocks with
    | none => Except.ok mem
    | some bs => relocBlocks (sub64 actualBase preferredBase) actualBase mem bs

/-- image_snap_by_ordinal from structs.rs lines 297-299. -/
def image_snap_by_ordinal (ordinal : Nat) : Bool :=
  (ordinal &&& 0x8000000000000000) != 0

/-- image_ordinal from structs.rs lines 301-303. -/
def image_ordinal (ordinal : Nat) : Nat := ordinal &&& 0xffff

/-- Hint/name record (structs.rs, ImageImportByName): a 16-bit hint
followed by a null-terminated name; the loader passes a pointer to the
name field to the host. -/
structure ImageImportByName where
  hint : Nat
  name : String
deriving DecidableEq, Repr

/-- Host facilities used by Loader::resolve_imports: LoadLibraryA (zero
models a NULL module handle) and GetProcAddress by ordinal or by name
(zero models a NULL function pointer). -/
structure Host where
  loadLibrary : String → Nat
  getProcByOrdinal : Nat → Nat → Nat
  getProcByName : Nat → String → Nat

/-- One import descriptor (structs.rs, ImportDescriptor) with its name
string resolved and the raw 64-bit thunk words found at first_thunk. -/
structure ImportDescriptorM where
  name : String
  thunks : List Nat
deriving DecidableEq, Repr

/-- Resolution of a single thunk (lib.rs lines 271-278): by ordinal when
image_snap_by_ordinal holds, otherwise by the name in the hint/name
record at `image_base + thunk` (u64 RVA resolution); `names` gives the
record stored at an address. -/
def resolveThunk (h : Host) (hmod base : Nat)
    (names : Nat → ImageImportByName) (thunk : Nat) : Nat :=
  if image_snap_by_ordinal thunk then
    h.getProcByOrdinal hmod (image_ordinal thunk)
  else
    h.getProcByName hmod (names (u64 (base + thunk))).name

/-- Thunk loop of Loader::resolve_imports (lib.rs lines 270-281 with the
iterator of structs.rs lines 232-246): visit thunk words until the first
zero word, overwriting each visited word in place with the resolved
address; the zero word and everything after it are untouched. -/
def resolveThunks (h : Host) (hmod base : Nat)
    (names : Nat → ImageImportByName) : List Nat → List Nat
  | [] => []
  | t :: ts =>
    if t != 0 then
      resolveThunk h hmod base names t :: resolveThunks h hmod base names ts
    else
      t :: ts

/-- Loader::resolve_imports (lib.rs lines 255-287): per descriptor, load
the module (NULL handle is LoadLibraryFailed), then patch its thunks.
Returns the patched thunk lists of all descriptors. -/
def resolve_imports (h : Host) (base : Nat)
    (names : Nat → ImageImportByName) :
    List ImportDescriptorM → Except LoadError (List (List Nat))
  | [] => Except.ok []
  | d :: ds =>
    let hmod := h.loadLibrary d.name
    if hmod = 0 then Except.error LoadError.LoadLibraryFailed
    else
      match resolve_imports h base names ds with
      | Except.error e => Except.error e
      | Except.ok rest =>
        Except.ok (resolveThunks h hmod base names d.thunks :: rest)

/-- Win32 page-protection constants (winapi crate values used in
lib.rs). -/
def PAGE_NOACCESS : Nat := 0x01

/-- PAGE_READONLY constant. -/
def PAGE_READONLY : Nat := 0x02

/-- PAGE_READWRITE constant. -/
def PAGE_READWRITE : Nat := 0x04

/-- PAGE_WRITECOPY constant. -/
def PAGE_WRITECOPY : Nat := 0x08

/-- PAGE_EXECUTE constant. -/
def PAGE_EXECUTE : Nat := 0x10

/-- PAGE_EXECUTE_READ constant. -/
def PAGE_EXECUTE_READ : Nat := 0x20

/-- PAGE_EXECUTE_READWRITE constant. -/
def PAGE_EXECUTE_READWRITE : Nat := 0x40

/-- PAGE_EXECUTE_WRITECOPY constant. -/
def PAGE_EXECUTE_WRITECOPY : Nat := 0x80

/-- Protection choice of Loader::mem_protect (lib.rs lines 302-315): the
Rust match on the masked MemExecute, MemRead and MemWrite characteristic
bits. -/
def sectionFlags (c : Nat) : Nat :=
  match c &&& 0x20000000, c &&& 0x40000000, c &&& 0x80000000 with
  | 0, 0, 0 => PAGE_NOACCESS
  | 0, 0, _ => PAGE_WRITECOPY
  | 0, _, 0 => PAGE_READONLY
  | 0, _, _ => PAGE_READWRITE
  | _, 0, 0 => PAGE_EXECUTE
  | _, 0, _ => PAGE_EXECUTE_WRITECOPY
  | _, _, 0 => PAGE_EXECUTE_READ
  | _, _, _ => PAGE_EXECUTE_READWRITE

/-- One VirtualProtect request: address, length and flags. -/
structure ProtectCall where
  addr : Nat
  size : Nat
  flags : Nat
deriving DecidableEq, Repr

/-- The VirtualProtect request Loader::mem_protect issues for a section
(lib.rs lines 299-323): base plus virtual address, over the section's
raw-data size, with the flags from its characteristics. -/
def protectCallOf (base : Nat) (s : ImageSectionHeader) : ProtectCall :=
  ⟨resolve_raw base s.virtual_address, s.size_of_raw_data,
    sectionFlags s.characteristics⟩

/-- Loader::mem_protect (lib.rs lines 289-331): walk the sections with
nonzero virtual address and nonzero raw-data size, issue a VirtualProtect
request for each; a failed request (vp returning false) aborts with
VirtualProtectFailed.  Returns the trace of issued requests. -/
def mem_protect (vp : ProtectCall → Bool) (base : Nat) :
    List ImageSectionHeader → Except LoadError (List ProtectCall)
  | [] => Except.ok []
  | s :: rest =>
    if s.virtual_address != 0 && s.size_of_raw_data != 0 then
      let call := protectCallOf base s
      if vp call then
        match mem_protect vp base rest with
        | Except.error e => Except.error e
        | Except.ok calls => Except.ok (call :: calls)
      else Except.error LoadError.VirtualProtectFailed
    else mem_protect vp base rest

/-- Formalisation of claim C5 exactly as the spec words it (spec section
3, Mapped Image): the arena allocated by the Section Mapper is at least
`size_of_image` bytes rounded up to a native page.  This definition
follows the SPEC, not the source; it is refuted below. -/
def arenaAtLeastSizeOfImage (sections : List ImageSectionHeader)
    (size_of_image pageSize : Nat) : Prop :=
  ∀ sz, mapModuleSize sections pageSize = some sz →
    (size_of_image + pageSize - 1) / pageSize * pageSize ≤ sz

/-!
Theorems.  Each claim of the specification audit gets exactly one main
theorem; auxiliary lemmas carry no claim status of their own.
-/

/-- Claim C1: the claim says entry_point is None exactly when the
entry-point RVA is zero.  The code instead matches the RESOLVED address
`image_base + rva` against zero, so for an image mapped at the (nonzero)
base 0x200000000 with `address_of_entry_point = 0` it produces
`Some image_base` where the claim demands None.  This theorem evaluates
the code at that failing input. -/
theorem load_entry_point_zero_rva_bug :
    loadEntryPoint 0x200000000 0 = some 0x200000000 ∧
    loadEntryPoint 0x200000000 0 ≠ none := by
  constructor
  · rfl
  · intro h
    simp [loadEntryPoint, resolve_raw, u64] at h

/-- Claim C2: the claim says a HighLow fix-up is a 32-bit
read-modify-write modulo 2^32 that cannot change bytes outside the
4-byte target.  The code dereferences a mut u64 and adds the low 32 bits
of delta with 64-bit arithmetic, so a carry escapes into the upper four
bytes: with delta 1 and the 64-bit word at the target holding 0xFFFFFFFF
the word becomes 0x100000000 — its high 32 bits change from 0 to 1,
while the modulo-2^32 semantics of the claim would leave them at 0. -/
theorem highlow_carry_escapes_bug :
    ∃ m₁, applyRelocEntry 1 0 0 (fun _ => 0xFFFFFFFF) 0x3000 =
        Except.ok m₁ ∧
      m₁ 0 = 0x100000000 ∧
      m₁ 0 / 2 ^ 32 ≠ (0xFFFFFFFF : Nat) / 2 ^ 32 := by
  refine ⟨_, rfl, ?_, ?_⟩
  · rfl
  · decide

/-- Claim C3: the claim says a null host resolution of an import makes
the load fail, equivalently a successful load leaves no null thunk word.
The code stores whatever GetProcAddress returns without checking it:
with a host whose LoadLibraryA succeeds (handle 1) but whose
GetProcAddress always returns null, resolve_imports still succeeds and
the patched IAT holds a null word. -/
theorem resolve_imports_null_proc_bug :
    resolve_imports
      ⟨fun _ => 1, fun _ _ => 0, fun _ _ => 0⟩ 0x200000000
      (fun _ => ⟨0, "Foo"⟩) [⟨"ExampleDll", [5, 0]⟩] =
      Except.ok [[0, 0]] := by
  rfl

/-- Claim C4: the claim says the nullary callable returned by
wrapped_dll_main calls the entry point with the actual mapped base as
first argument.  The code passes a NULL module handle (modelled as 0),
which differs from any nonzero mapped base such as 0x200000000; the
process-attach reason is passed as claimed. -/
theorem wrapped_dll_main_null_hmodule_bug :
    wrapped_dll_main (fun h r p => (h, r, p)) () = (0, DLL_PROCESS_ATTACH, 0) ∧
    (0 : Nat) ≠ 0x200000000 := by
  exact ⟨rfl, by decide⟩

/-- Claim C5, counterexample: a section with virtual_address 0x1000 and
raw size 0x200 in an image declaring size_of_image 0x3000 gets an arena
of only 0x2000 bytes (page size 4096), which is below size_of_image
rounded up to a page (0x3000). -/
theorem arena_size_of_image_cex :
    ¬ arenaAtLeastSizeOfImage [⟨0x1000, 0x200, 0, 0⟩] 0x3000 4096 := by
  intro h
  have h2 := h 0x2000 (by decide)
  omega

/-- Claim C9: when no section has a nonzero virtual address (including a
section count of zero), the arena-size computation of map_module maps an
empty filtered list and takes `.max()` of an empty iterator, whose
`.unwrap()` panics; the model returns none, so Loader::load cannot
return a LoadError for such inputs. -/
theorem map_module_empty_sections_panics
    (sections : List ImageSectionHeader) (pageSize : Nat)
    (h : ∀ s ∈ sections, s.virtual_address = 0) :
    mapModuleSize sections pageSize = none := by
  have hfilter : sections.filter (fun s => s.virtual_address != 0) = [] := by
    rw [List.filter_eq_nil_iff]
    intro s hs
    simp [h s hs]
  simp [mapModuleSize, hfilter]

/-- Witness for C9 at a concrete input: a single section with virtual
address zero. -/
theorem map_module_empty_sections_panics_witness :
    mapModuleSize [⟨0, 5, 0, 0⟩] 4096 = none :=
  map_module_empty_sections_panics [⟨0, 5, 0, 0⟩] 4096 (by decide)

/-- Claim C10: when the actual base differs from the preferred base and
the BaseReloc directory RVA is nonzero but the first block of the chain
has size_of_block at most 8, get_relocation_entries returns None and
relocate succeeds with the memory untouched, whatever blocks follow. -/
theorem relocate_small_first_block
    (actualBase preferredBase relocDirVA : Nat)
    (b : ImageBaseRelocation) (rest : List ImageBaseRelocation) (mem : Mem)
    (hab : actualBase ≠ preferredBase) (hdv : relocDirVA ≠ 0)
    (hsz : b.size_of_block ≤ 8) :
    relocate actualBase preferredBase relocDirVA (b :: rest) mem =
      Except.ok mem := by
  simp [relocate, get_relocation_entries, hab, hdv, hsz]

/-- Witness for C10 at a concrete input: first block of exactly header
size 8 followed by a block carrying an (unsupported) record. -/
theorem relocate_small_first_block_witness :
    relocate 0x200000000 0x140000000 0x5000
      [⟨0x1000, 8, [0x5001]⟩, ⟨0x2000, 10, [0x5002]⟩] (fun _ => 7) =
      Except.ok (fun _ => 7) :=
  relocate_small_first_block 0x200000000 0x140000000 0x5000
    ⟨0x1000, 8, [0x5001]⟩ [⟨0x2000, 10, [0x5002]⟩] (fun _ => 7)
    (by decide) (by decide) (by decide)

/-- Helper: a record whose tag is 0, 3 or 10 never aborts the
relocation loop. -/
theorem applyRelocEntry_ok_of_tag (delta base bva : Nat) (mem : Mem) (g : Nat)
    (hg : relocTag g = 0 ∨ relocTag g = 3 ∨ relocTag g = 10) :
    ∃ m, applyRelocEntry delta base bva mem g = Except.ok m := by
  rcases hg with h | h | h <;> simp [applyRelocEntry, h]

/-- Helper: a record list of supported tags is processed without error. -/
theorem relocEntries_ok_of_tags (delta base bva : Nat) (l : List Nat)
    (hl : ∀ g ∈ l, relocTag g = 0 ∨ relocTag g = 3 ∨ relocTag g = 10) :
    ∀ mem, ∃ m, relocEntries delta base bva mem l = Except.ok m := by
  induction l with
  | nil => intro mem; exact ⟨mem, rfl⟩
  | cons g gs ih =>
    intro mem
    obtain ⟨m₁, hm₁⟩ :=
      applyRelocEntry_ok_of_tag delta base bva mem g (hl g (by simp))
    obtain ⟨m₂, hm₂⟩ := ih (fun x hx => hl x (by simp [hx])) m₁
    exact ⟨m₂, by simp [relocEntries, hm₁, hm₂]⟩

/-- Helper: the first record with an unsupported tag aborts with that
tag, whatever memory the preceding supported records produced. -/
theorem relocEntries_error_first_bad (delta base bva : Nat)
    (good : List Nat) (e : Nat) (after : List Nat)
    (hgood : ∀ g ∈ good, relocTag g = 0 ∨ relocTag g = 3 ∨ relocTag g = 10)
    (hbad : ¬(relocTag e = 0 ∨ relocTag e = 3 ∨ relocTag e = 10)) :
    ∀ mem, relocEntries delta base bva mem (good ++ e :: after) =
      Except.error (LoadError.UnsupporrtedRelocationType (relocTag e)) := by
  induction good with
  | nil =>
    intro mem
    push_neg at hbad
    obtain ⟨h0, h3, h10⟩ := hbad
    simp [relocEntries, applyRelocEntry, h0, h3, h10]
  | cons g gs ih =>
    intro mem
    obtain ⟨m₁, hm₁⟩ :=
      applyRelocEntry_ok_of_tag delta base bva mem g (hgood g (by simp))
    simp only [List.cons_append, relocEntries, hm₁]
    exact ih (fun x hx => hgood x (by simp [hx])) m₁

/-- Helper: blocks whose visited records all carry supported tags are
processed without error. -/
theorem relocBlocks_ok_of_tags (delta base : Nat)
    (bs : List ImageBaseRelocation)
    (hbs : ∀ b ∈ bs, ∀ g ∈ blockEntries b,
      relocTag g = 0 ∨ relocTag g = 3 ∨ relocTag g = 10) :
    ∀ mem, ∃ m, relocBlocks delta base mem bs = Except.ok m := by
  induction bs with
  | nil => intro mem; exact ⟨mem, rfl⟩
  | cons b rest ih =>
    intro mem
    obtain ⟨m₁, hm₁⟩ := relocEntries_ok_of_tags delta base b.virtual_address
      (blockEntries b) (hbs b (by simp)) mem
    obtain ⟨m₂, hm₂⟩ := ih (fun x hx => hbs x (by simp [hx])) m₁
    exact ⟨m₂, by simp [relocBlocks, hm₁, hm₂]⟩

/-- Helper: the block chain aborts at the first unsupported record. -/
theorem relocBlocks_error_first_bad (delta base : Nat)
    (goodBlocks : List ImageBaseRelocation) (b : ImageBaseRelocation)
    (moreBlocks : List ImageBaseRelocation)
    (good : List Nat) (e : Nat) (after : List Nat)
    (hgb : ∀ blk ∈ goodBlocks, ∀ g ∈ blockEntries blk,
      relocTag g = 0 ∨ relocTag g = 3 ∨ relocTag g = 10)
    (hsplit : blockEntries b = good ++ e :: after)
    (hgood : ∀ g ∈ good, relocTag g = 0 ∨ relocTag g = 3 ∨ relocTag g = 10)
    (hbad : ¬(relocTag e = 0 ∨ relocTag e = 3 ∨ relocTag e = 10)) :
    ∀ mem, relocBlocks delta base mem (goodBlocks ++ b :: moreBlocks) =
      Except.error (LoadError.UnsupporrtedRelocationType (relocTag e)) := by
  induction goodBlocks with
  | nil =>
    intro mem
    have herr := relocEntries_error_first_bad delta base b.virtual_address
      good e after hgood hbad mem
    simp [relocBlocks, hsplit, herr]
  | cons g gs ih =>
    intro mem
    obtain ⟨m₁, hm₁⟩ := relocEntries_ok_of_tags delta base g.virtual_address
      (blockEntries g) (hgb g (by simp)) mem
    simp only [List.cons_append, relocBlocks, hm₁]
    exact ih (fun x hx => hgb x (by simp [hx])) m₁

/-- Claim C6: when relocation runs (actual base differs from the
preferred base and the BaseReloc directory is present with a first block
larger than its header), a record with tag 0 leaves memory untouched, a
record with tag 10 adds delta to the 64-bit word at its target modulo
2^64 leaving every other address unchanged, and the first record whose
tag is outside 0, 3, 10 makes relocate fail with
UnsupporrtedRelocationType carrying that tag. -/
theorem relocate_tag_semantics :
    (∀ (delta base bva : Nat) (mem : Mem) (e : Nat), relocTag e = 0 →
        applyRelocEntry delta base bva mem e = Except.ok mem)
    ∧ (∀ (delta base bva : Nat) (mem : Mem) (e : Nat), relocTag e = 10 →
        ∃ m₁, applyRelocEntry delta base bva mem e = Except.ok m₁ ∧
          m₁ (u64 (resolve_raw base (relocOffset e) + bva)) =
            u64 (mem (u64 (resolve_raw base (relocOffset e) + bva)) + delta) ∧
          ∀ a, a ≠ u64 (resolve_raw base (relocOffset e) + bva) →
            m₁ a = mem a)
    ∧ (∀ (actualBase preferredBase relocDirVA : Nat) (mem : Mem)
          (goodBlocks : List ImageBaseRelocation) (b : ImageBaseRelocation)
          (moreBlocks : List ImageBaseRelocation)
          (good : List Nat) (e : Nat) (after : List Nat),
        actualBase ≠ preferredBase → relocDirVA ≠ 0 →
        8 < (goodBlocks.headD b).size_of_block →
        (∀ blk ∈ goodBlocks, ∀ g ∈ blockEntries blk,
          relocTag g = 0 ∨ relocTag g = 3 ∨ relocTag g = 10) →
        blockEntries b = good ++ e :: after →
        (∀ g ∈ good, relocTag g = 0 ∨ relocTag g = 3 ∨ relocTag g = 10) →
        ¬(relocTag e = 0 ∨ relocTag e = 3 ∨ relocTag e = 10) →
        relocate actualBase preferredBase relocDirVA
            (goodBlocks ++ b :: moreBlocks) mem =
          Except.error (LoadError.UnsupporrtedRelocationType (relocTag e))) := by
  refine ⟨?_, ?_, ?_⟩
  · intro delta base bva mem e h
    simp [applyRelocEntry, h]
  · intro delta base bva mem e h
    refine ⟨writeMem mem (u64 (resolve_raw base (relocOffset e) + bva))
      (u64 (mem (u64 (resolve_raw base (relocOffset e) + bva)) + delta)),
      ?_, ?_, ?_⟩
    · simp [applyRelocEntry, h]
    · simp [writeMem]
    · intro a ha
      simp [writeMem, ha]
  · intro ab pb dv mem goodBlocks b moreBlocks good e after hab hdv hhead
      hgb hsplit hgood hbad
    have herr := relocBlocks_error_first_bad (sub64 ab pb) ab goodBlocks b
      moreBlocks good e after hgb hsplit hgood hbad mem
    have hge : get_relocation_entries dv (goodBlocks ++ b :: moreBlocks) =
        some (goodBlocks ++ b :: moreBlocks) := by
      cases goodBlocks with
      | nil =>
        simp only [List.headD_nil] at hhead
        simp [get_relocation_entries, hdv, Nat.not_le.mpr hhead]
      | cons g gs =>
        simp only [List.headD_cons] at hhead
        simp [get_relocation_entries, hdv, Nat.not_le.mpr hhead]
    simp [relocate, hab, hge, herr]

/-- Witness for C6 at concrete inputs: an Absolute record is a no-op, a
Dir64 record with delta 3 rewrites only its target word, and a record
with tag 5 behind one Absolute record aborts with that tag. -/
theorem relocate_tag_semantics_witness :
    applyRelocEntry 5 0 0 (fun _ => 7) 0x0001 = Except.ok (fun _ => 7) ∧
    (∃ m₁, applyRelocEntry 3 0 0 (fun _ => 7) 0xA002 = Except.ok m₁ ∧
      m₁ 2 = 10 ∧ ∀ a, a ≠ 2 → m₁ a = 7) ∧
    relocate 2 1 1 [⟨0, 12, [0, 0x5000]⟩] (fun _ => 7) =
      Except.error (LoadError.UnsupporrtedRelocationType 5) := by
  refine ⟨?_, ?_, ?_⟩
  · exact relocate_tag_semantics.1 5 0 0 (fun _ => 7) 0x0001 (by decide)
  · exact relocate_tag_semantics.2.1 3 0 0 (fun _ => 7) 0xA002 (by decide)
  · exact relocate_tag_semantics.2.2 2 1 1 (fun _ => 7) []
      ⟨0, 12, [0, 0x5000]⟩ [] [0] 0x5000 [] (by decide) (by decide)
      (by decide) (by simp) rfl (by decide) (by decide)

/-- Claim C7: mem_protect visits exactly the sections with nonzero
virtual address and nonzero raw-data size (when every reprotection
succeeds, the issued requests are precisely the filtered sections in
order, each over the section's raw-data size), the flags follow the
8-row X/R/W table on the characteristics bits 29/30/31, and a failing
reprotection aborts the load with VirtualProtectFailed. -/
theorem mem_protect_spec :
    (∀ (vp : ProtectCall → Bool) (base : Nat)
        (sections : List ImageSectionHeader), (∀ c, vp c = true) →
      mem_protect vp base sections = Except.ok
        ((sections.filter
          (fun s => s.virtual_address != 0 && s.size_of_raw_data != 0)).map
          (protectCallOf base)))
    ∧ (∀ c : Nat, sectionFlags c =
        match c.testBit 29, c.testBit 30, c.testBit 31 with
        | false, false, false => PAGE_NOACCESS
        | false, false, true => PAGE_WRITECOPY
        | false, true, false => PAGE_READONLY
        | false, true, true => PAGE_READWRITE
        | true, false, false => PAGE_EXECUTE
        | true, false, true => PAGE_EXECUTE_WRITECOPY
        | true, true, false => PAGE_EXECUTE_READ
        | true, true, true => PAGE_EXECUTE_READWRITE)
    ∧ (∀ (base : Nat) (sections : List ImageSectionHeader),
        sections.filter
          (fun s => s.virtual_address != 0 && s.size_of_raw_data != 0) ≠ [] →
        mem_protect (fun _ => false) base sections =
          Except.error LoadError.VirtualProtectFailed) := by
  refine ⟨?_, ?_, ?_⟩
  · intro vp base sections hvp
    induction sections with
    | nil => rfl
    | cons s rest ih =>
      cases hcond : (s.virtual_address != 0 && s.size_of_raw_data != 0) with
      | false => simp [mem_protect, hcond, List.filter_cons, ih]
      | true => simp [mem_protect, hcond, hvp, List.filter_cons, ih]
  · intro c
    have e1 : (0x20000000 : Nat) = 2 ^ 29 := by norm_num
    have e2 : (0x40000000 : Nat) = 2 ^ 30 := by norm_num
    have e3 : (0x80000000 : Nat) = 2 ^ 31 := by norm_num
    cases h29 : c.testBit 29 <;> cases h30 : c.testBit 30 <;>
      cases h31 : c.testBit 31 <;>
      simp only [sectionFlags, e1, e2, e3, Nat.and_two_pow, h29, h30, h31,
        Bool.toNat_false, Bool.toNat_true, Nat.zero_mul, Nat.one_mul]
  · intro base sections hne
    induction sections with
    | nil => simp at hne
    | cons s rest ih =>
      cases hcond : (s.virtual_address != 0 && s.size_of_raw_data != 0) with
      | false =>
        rw [List.filter_cons, hcond] at hne
        simp only [mem_protect, hcond]
        exact ih (by simpa using hne)
      | true => simp [mem_protect, hcond]

/-- Witness for C7 at a concrete input: one executable readable section
at RVA 0x1000 of raw size 0x10; with an always-succeeding host the one
request carries ExecuteRead flags over 0x10 bytes, with an
always-failing host the load aborts. -/
theorem mem_protect_spec_witness :
    mem_protect (fun _ => true) 0x200000000
      [⟨0x1000, 0x10, 0, 0x60000000⟩] =
      Except.ok [⟨0x200001000, 0x10, PAGE_EXECUTE_READ⟩] ∧
    mem_protect (fun _ => false) 0x200000000
      [⟨0x1000, 0x10, 0, 0x60000000⟩] =
      Except.error LoadError.VirtualProtectFailed := by
  constructor
  · exact mem_protect_spec.1 (fun _ => true) 0x200000000
      [⟨0x1000, 0x10, 0, 0x60000000⟩] (fun _ => rfl)
  · exact mem_protect_spec.2.2 0x200000000
      [⟨0x1000, 0x10, 0, 0x60000000⟩] (by decide)

/-- Claim C8: the thunk loop rewrites in place exactly the maximal
zero-free prefix of the thunk stream, stopping at the first zero word
and leaving it and everything after it unchanged; a visited thunk with
its top (63rd) bit set resolves by ordinal with ordinal number
thunk mod 2^16, any other visited thunk resolves by the name stored in
the hint/name record its RVA points to. -/
theorem resolve_thunks_spec :
    (∀ (h : Host) (hmod base : Nat) (names : Nat → ImageImportByName)
        (ts : List Nat),
      resolveThunks h hmod base names ts =
        (ts.takeWhile (fun t => t != 0)).map (resolveThunk h hmod base names)
          ++ ts.dropWhile (fun t => t != 0))
    ∧ (∀ (h : Host) (hmod base : Nat) (names : Nat → ImageImportByName)
        (t : Nat),
      resolveThunk h hmod base names t =
        if t.testBit 63 then h.getProcByOrdinal hmod (t % 2 ^ 16)
        else h.getProcByName hmod (names (u64 (base + t))).name) := by
  constructor
  · intro h hmod base names ts
    induction ts with
    | nil => rfl
    | cons t ts ih =>
      by_cases ht : t = 0
      · subst ht
        simp [resolveThunks]
      · simp [resolveThunks, ht, List.takeWhile_cons, List.dropWhile_cons, ih]
  · intro h hmod base names t
    have hsnap : image_snap_by_ordinal t = t.testBit 63 := by
      have hand : t &&& 0x8000000000000000 =
          (t.testBit 63).toNat * 0x8000000000000000 := by
        have h2 := Nat.and_two_pow t 63
        norm_num at h2
        exact h2
      cases hb : t.testBit 63 <;> simp [image_snap_by_ordinal, hand, hb]
    have hord : image_ordinal t = t % 2 ^ 16 := by
      have h16 : (0xffff : Nat) = 2 ^ 16 - 1 := by norm_num
      rw [image_ordinal, h16, Nat.and_pow_two_sub_one_eq_mod]
    rw [resolveThunk, hsnap, hord]

/-- Helper: bits of the mask `2^k * (2^m - 1)` (the bits from position k
up to position k+m). -/
theorem testBit_high_mask (k m i : Nat) :
    (2 ^ k * (2 ^ m - 1)).testBit i =
      (decide (k ≤ i) && decide (i < k + m)) := by
  rw [Nat.mul_comm, ← Nat.shiftLeft_eq, Nat.testBit_shiftLeft,
    Nat.testBit_two_pow_sub_one]
  rcases Nat.lt_or_ge i k with hik | hik
  · have h1 : (decide (k ≤ i)) = false := decide_eq_false (by omega)
    rw [h1, Bool.false_and, Bool.false_and]
  · have h1 : (decide (k ≤ i)) = true := decide_eq_true hik
    rw [h1, Bool.true_and, Bool.true_and, decide_eq_decide]
    omega

/-- Helper: for k at most 32 and x below 2^32, masking x with
`2^32 - 2^k` clears its low k bits. -/
theorem land_high_mask (x k : Nat) (hk : k ≤ 32) (hx : x < 2 ^ 32) :
    x &&& (2 ^ 32 - 2 ^ k) = x / 2 ^ k * 2 ^ k := by
  have hsplit : 2 ^ 32 - 2 ^ k = 2 ^ k * (2 ^ (32 - k) - 1) := by
    have hpow : 2 ^ k * 2 ^ (32 - k) = 2 ^ 32 := by
      rw [← Nat.pow_add]
      congr 1
      omega
    rw [Nat.mul_sub_one, hpow]
  rw [hsplit]
  apply Nat.eq_of_testBit_eq
  intro i
  rw [Nat.testBit_and, testBit_high_mask]
  have hkm : k + (32 - k) = 32 := by omega
  rw [hkm, ← Nat.shiftRight_eq_div_pow, ← Nat.shiftLeft_eq,
    Nat.testBit_shiftLeft, Nat.testBit_shiftRight]
  rcases Nat.lt_or_ge i k with hik | hik
  · have h1 : (decide (k ≤ i)) = false := decide_eq_false (by omega)
    rw [h1, Bool.false_and, Bool.and_false, Bool.false_and]
  · have h1 : (decide (k ≤ i)) = true := decide_eq_true hik
    have h3 : k + (i - k) = i := by omega
    rw [h1, h3, Bool.true_and, Bool.true_and]
    rcases Nat.lt_or_ge i 32 with h32 | h32
    · rw [decide_eq_true h32, Bool.and_true]
    · have hxi : x.testBit i = false :=
        Nat.testBit_lt_two_pow
          (lt_of_lt_of_le hx (Nat.pow_le_pow_right (by norm_num) h32))
      rw [hxi, Bool.false_and]

/-- Claim C5, amended: for a native page size 2^k (k between 1 and 32)
and sections whose extents fit a u32 with a page to spare, the arena
size computed by map_module is page-aligned and covers
`virtual_address + size_of_raw_data` for every section with nonzero
virtual address (it is the maximum such extent rounded up to a page,
not size_of_image). -/
theorem map_module_arena_size (sections : List ImageSectionHeader)
    (pageSize k sz : Nat) (hpk : pageSize = 2 ^ k) (hk32 : k ≤ 32)
    (hbound : ∀ s ∈ sections,
      s.virtual_address + s.size_of_raw_data + (pageSize - 1) < 2 ^ 32)
    (hsz : mapModuleSize sections pageSize = some sz) :
    sz % pageSize = 0 ∧
      ∀ s ∈ sections, s.virtual_address ≠ 0 →
        s.virtual_address + s.size_of_raw_data ≤ sz := by
  subst hpk
  unfold mapModuleSize at hsz
  cases hmax : ((sections.filter (fun s => s.virtual_address != 0)).map
      (fun s => (s.virtual_address + s.size_of_raw_data) % 2 ^ 32)).max? with
  | none =>
    rw [hmax] at hsz
    simp at hsz
  | some size =>
    rw [hmax] at hsz
    simp only [Option.some.injEq] at hsz
    have hmem := List.max?_mem (fun a b => max_choice a b) hmax
    have hle := (List.max?_le_iff (fun a b c => max_le_iff) hmax).1
      (Nat.le_refl size)
    obtain ⟨s₀, hs₀f, hs₀e⟩ := List.mem_map.mp hmem
    have hs₀ := (List.mem_filter.mp hs₀f).1
    have hb₀ := hbound s₀ hs₀
    have hsize : size = s₀.virtual_address + s₀.size_of_raw_data := by
      rw [← hs₀e, Nat.mod_eq_of_lt (by omega)]
    have h2k : (2 : Nat) ^ k ≤ 2 ^ 32 := Nat.pow_le_pow_right (by norm_num) hk32
    have h1k : (1 : Nat) ≤ 2 ^ k := Nat.one_le_two_pow
    have hps : (2 ^ k - 1) % 2 ^ 32 = 2 ^ k - 1 :=
      Nat.mod_eq_of_lt (by omega)
    have hnot : notU32 (2 ^ k - 1) = 2 ^ 32 - 2 ^ k := by
      simp only [notU32, hps]
      omega
    have hslt : size + (2 ^ k - 1) < 2 ^ 32 := by omega
    have hmod : (size + (2 ^ k - 1)) % 2 ^ 32 = size + (2 ^ k - 1) :=
      Nat.mod_eq_of_lt hslt
    rw [hmod, hnot, land_high_mask _ _ hk32 hslt] at hsz
    have hdm := Nat.div_add_mod (size + (2 ^ k - 1)) (2 ^ k)
    have hml : (size + (2 ^ k - 1)) % 2 ^ k < 2 ^ k :=
      Nat.mod_lt _ (by omega)
    have hq : (size + (2 ^ k - 1)) / 2 ^ k * 2 ^ k =
        2 ^ k * ((size + (2 ^ k - 1)) / 2 ^ k) := Nat.mul_comm _ _
    have hszge : size ≤ sz := by
      rw [← hsz, hq]
      omega
    constructor
    · rw [← hsz, Nat.mul_mod_left]
    · intro s hs hva
      have hbs := hbound s hs
      have hsL : (s.virtual_address + s.size_of_raw_data) % 2 ^ 32 ∈
          (sections.filter (fun s => s.virtual_address != 0)).map
            (fun s => (s.virtual_address + s.size_of_raw_data) % 2 ^ 32) :=
        List.mem_map_of_mem _
          (List.mem_filter.mpr ⟨hs, by simpa using hva⟩)
      have hsle := hle _ hsL
      rw [Nat.mod_eq_of_lt (by omega)] at hsle
      omega

/-- Witness for C5 at a concrete input: one section at RVA 0x1000 of
raw size 0x200 with page size 4096 yields the page-aligned arena size
0x2000, which covers the section's extent 0x1200. -/
theorem map_module_arena_size_witness :
    (0x2000 : Nat) % 4096 = 0 ∧
      ∀ s ∈ [(⟨0x1000, 0x200, 0, 0⟩ : ImageSectionHeader)],
        s.virtual_address ≠ 0 →
          s.virtual_address + s.size_of_raw_data ≤ 0x2000 :=
  map_module_arena_size [⟨0x1000, 0x200, 0, 0⟩] 4096 12 0x2000
    (by norm_num) (by norm_num) (by decide) (by decide)

end PeLoad
